import Mathlib

/-!
Shallow embedding of the face-animator display client (`animator.py`).

The animator holds a mean shape (list of 3D points), a flattened expression
basis matrix of shape (E, 3·V), an optional list of eye-vertex indices, and a
shared raw-data slot written by the network receive loop.  Real numbers are
modelled by `ℚ` (all inputs are finite; the claims under study are exact
identities, not rounding properties).  A token of the comma-split raw frame is
`some q` when Python's `float` succeeds on it and `none` when it raises
`ValueError`.  Exceptions caught by the broad `except` blocks are modelled with
`Except Unit`.
-/

/-- One 3D vertex (a row of a numpy `(V, 3)` array). -/
structure Vec3 where
  x : ℚ
  y : ℚ
  z : ℚ
deriving DecidableEq, Repr

instance : Inhabited Vec3 := ⟨⟨0, 0, 0⟩⟩

/-- Decidable equality for `Except`, used only to evaluate the embedding on
concrete inputs. -/
instance {ε α : Type} [DecidableEq ε] [DecidableEq α] : DecidableEq (Except ε α) := fun a b =>
  match a, b with
  | Except.ok x, Except.ok y =>
    if h : x = y then isTrue (by rw [h]) else isFalse (fun hc => by cases hc; exact h rfl)
  | Except.error x, Except.error y =>
    if h : x = y then isTrue (by rw [h]) else isFalse (fun hc => by cases hc; exact h rfl)
  | Except.ok _, Except.error _ => isFalse (fun hc => by cases hc)
  | Except.error _, Except.ok _ => isFalse (fun hc => by cases hc)

/-- Componentwise addition, as numpy elementwise `+` on `(V,3)` arrays. -/
def Vec3.add (a b : Vec3) : Vec3 := ⟨a.x + b.x, a.y + b.y, a.z + b.z⟩

/-- One comma-separated token of a raw frame: `some q` if `float(token)`
parses to the rational `q`, `none` if `float` raises `ValueError`. -/
abbrev Token := Option ℚ

/-- State of a `FaceAnimator` as far as `_update_vertices` reads and writes it:
`exp_num`/`vertices_num` and the reshaped `exp_bases` from `_init_exp_bases`,
`mean_shape` from `_init_base_model`, the optional `eye_index` list, the shared
`raw_data` slot (`none` models the attribute never having been set), and the
`coeff_raw` attribute written by `_update_vertices` (`none` before first set). -/
structure AnimState where
  expNum : ℕ
  verticesNum : ℕ
  meanShape : List Vec3
  expBases : List (List ℚ)
  eyeIndex : Option (List ℕ)
  rawData : Option (List Token)
  coeffRaw : Option (List ℚ)
deriving DecidableEq, Repr

/-- Embeds `[float(x) for x in self.raw_data.split(',')]`: the whole list is
built, and any non-numeric token raises (yields `none`). -/
def parseFloats : List Token → Option (List ℚ)
  | [] => some []
  | none :: _ => none
  | some q :: rest => (parseFloats rest).map (fun l => q :: l)

/-- Embeds `coeff = np.zeros(self.exp_num)` followed by
`coeff[0] = raw[25]/80; coeff[1] = raw[13]/80; coeff[2] = raw[12]/80`,
given the three raw values already read.  (The caller checks `3 ≤ expNum`;
numpy raises `IndexError` on the assignments otherwise.) -/
def mkCoeff (expNum : ℕ) (a b c : ℚ) : List ℚ :=
  (((List.replicate expNum (0 : ℚ)).set 0 (a / 80)).set 1 (b / 80)).set 2 (c / 80)

/-- Embeds the numpy vector–matrix product `coeff @ exp_bases` on a list of
rows: defined when the vector length matches the row count and the matrix is
rectangular (numpy raises `ValueError` otherwise), producing one entry per
column. -/
def vecMatmul (c : List ℚ) (B : List (List ℚ)) : Option (List ℚ) :=
  if c.length = B.length ∧ ∀ r ∈ B, r.length = (B.headD []).length then
    some ((List.range (B.headD []).length).map (fun j =>
      ((c.zip B).map (fun p => p.1 * p.2.getD j 0)).sum))
  else none

/-- Groups a flat list into consecutive triples (rows of a `(V, 3)` array). -/
def chunk3 : List ℚ → List Vec3
  | x :: y :: z :: rest => ⟨x, y, z⟩ :: chunk3 rest
  | _ => []

/-- Embeds `.reshape(self.vertices_num, 3)`: numpy requires the total size to
match exactly, raising `ValueError` otherwise. -/
def reshapeV (l : List ℚ) (v : ℕ) : Option (List Vec3) :=
  if l.length = 3 * v then some (chunk3 l) else none

/-- Embeds `(coeff @ self.exp_bases).reshape(self.vertices_num, 3) +
self.mean_shape` (animator.py line 112), the blended vertices before eye
correction.  The final guard embeds numpy's shape check on the elementwise
add. -/
def blend (coeff : List ℚ) (s : AnimState) : Option (List Vec3) :=
  match vecMatmul coeff s.expBases with
  | none => none
  | some prod =>
    match reshapeV prod s.verticesNum with
    | none => none
    | some vs =>
      if vs.length = s.meanShape.length then
        some (List.zipWith Vec3.add vs s.meanShape)
      else none

/-- The vertex value the eye correction writes at index `idx`: the mean-shape
vertex with `eyeDelta` subtracted from its third (depth) coordinate. -/
def eyeTarget (eyeDelta : ℚ) (mean : List Vec3) (idx : ℕ) : Vec3 :=
  let p := mean.getD idx default
  ⟨p.x, p.y, p.z - eyeDelta⟩

/-- One iteration of the eye loop: `v[idx] = self.mean_shape[idx]` (numpy row
assignment copies the values into `v`) followed by `v[idx][2] -= eye_delta`. -/
def eyeStep (eyeDelta : ℚ) (mean : List Vec3) (acc : List Vec3) (idx : ℕ) : List Vec3 :=
  let acc1 := acc.set idx (mean.getD idx default)
  let p := acc1.getD idx default
  acc1.set idx ⟨p.x, p.y, p.z - eyeDelta⟩

/-- Embeds `for idx in self.eye_index: v[idx] = self.mean_shape[idx];
v[idx][2] -= eye_delta` (animator.py lines 114-116). -/
def eyeCorrect (eyeDelta : ℚ) (mean : List Vec3) (v : List Vec3) (idxs : List ℕ) : List Vec3 :=
  idxs.foldl (eyeStep eyeDelta mean) v

/-- Embeds the `try` block of `_update_vertices` (animator.py lines 101-117).
The first component is the value of `self.coeff_raw` after the block (the
attribute is written as soon as parsing succeeds, kept otherwise); the second
is the block's outcome: `Except.error ()` for any raised exception
(`AttributeError` when `raw_data` was never set, `ValueError` from `float` or
from a shape mismatch, `IndexError` from a short frame, from `exp_num < 3` or
from an out-of-range eye index), `Except.ok (some v)` for `return v` inside
the `if self.eye_index is not None` branch, and `Except.ok none` for falling
off the end of the `try` block (Python returns `None`) when `eye_index` is
`None`. -/
def updateVerticesTry (s : AnimState) (eyeDelta : ℚ) :
    Option (List ℚ) × Except Unit (Option (List Vec3)) :=
  match s.rawData with
  | none => (s.coeffRaw, Except.error ())
  | some toks =>
    match parseFloats toks with
    | none => (s.coeffRaw, Except.error ())
    | some raw =>
      (some raw,
        match raw[25]?, raw[13]?, raw[12]? with
        | some a, some b, some c =>
          if 3 ≤ s.expNum then
            match blend (mkCoeff s.expNum a b c) s with
            | none => Except.error ()
            | some v =>
              match s.eyeIndex with
              | some idxs =>
                if idxs.all (fun i => decide (i < v.length)) then
                  Except.ok (some (eyeCorrect eyeDelta s.meanShape v idxs))
                else Except.error ()
              | none => Except.ok none
          else Except.error ()
        | _, _, _ => Except.error ())

/-- Result of one call of `_update_vertices`: the updated animator state, the
Python return value (`none` models Python's `None`), and the lines printed by
the call (the function body contains no `print`, so this is always empty). -/
structure UpdateResult where
  state : AnimState
  ret : Option (List Vec3)
  log : List String
deriving DecidableEq, Repr

/-- Embeds `FaceAnimator._update_vertices` (animator.py lines 100-119): run
the `try` block; on any exception the `except` handler returns
`self.mean_shape`. -/
def updateVertices (s : AnimState) (eyeDelta : ℚ) : UpdateResult :=
  { state := { s with coeffRaw := (updateVerticesTry s eyeDelta).1 }
    ret :=
      match (updateVerticesTry s eyeDelta).2 with
      | Except.ok r => r
      | Except.error _ => some s.meanShape
    log := [] }

/-- One observable event at the socket in `_recv_message`: `recvfrom` delivers
a chunk that decodes and splits into the given tokens (`msg`); the peer closes
gracefully and `recvfrom` returns the empty chunk `b''` without raising
(`closed` — TCP end-of-stream is not an exception), whose decoded empty string
splits into the single empty, non-numeric token; or the read (or decode)
raises an exception (`fail` — an I/O error such as a reset, or the socket
being closed locally). -/
inductive NetEvent where
  | msg (frame : List Token)
  | closed
  | fail
deriving DecidableEq, Repr

/-- One line printed by `_recv_message`: the per-message `From Server` echo, or
the single `Lose Connection` report from the `except` handler. -/
inductive LogMsg where
  | fromServer (frame : List Token)
  | loseConnection
deriving DecidableEq, Repr

/-- Embeds `FaceAnimator._recv_message` (animator.py lines 89-96) over a trace
of socket events: `while True` stores each received frame in `raw_data` and
echoes it.  A graceful peer close delivers the empty chunk: no exception is
raised, so the loop stores the empty string's single empty token as `raw_data`,
echoes it, and keeps reading.  Only the first raising read is caught by the
`except`, which reports once, and the function returns (the thread exits;
events after the failure are never consumed and no reconnection is attempted).
Returns the final value of the `raw_data` slot and the printed log. -/
def recvLoop : List NetEvent → Option (List Token) → Option (List Token) × List LogMsg
  | [], raw => (raw, [])
  | NetEvent.msg f :: rest, _ =>
    let r := recvLoop rest (some f)
    (r.1, LogMsg.fromServer f :: r.2)
  | NetEvent.closed :: rest, _ =>
    let r := recvLoop rest (some [none])
    (r.1, LogMsg.fromServer [none] :: r.2)
  | NetEvent.fail :: _, raw => (raw, [LogMsg.loseConnection])

/-- Embeds the vertex-update side of the `while self.view.is_active` loop in
`FaceAnimator.start` (animator.py lines 132-135) for `n` cycles: each cycle
calls `_update_vertices` on the current state and threads the state (the
`raw_data` slot is no longer written once the feed thread has exited). -/
def animCycles (s : AnimState) (eyeDelta : ℚ) : ℕ → List (Option (List Vec3))
  | 0 => []
  | Nat.succ n =>
    (updateVertices s eyeDelta).ret :: animCycles (updateVertices s eyeDelta).state eyeDelta n

/-- Renderer state visible to `_update_pyrender`: whether the viewer's
`render_lock` is held, and whether the face node is in the scene. -/
structure RenderState where
  lockHeld : Bool
  nodeInScene : Bool
deriving DecidableEq, Repr

/-- Embeds `FaceAnimator._update_pyrender` (animator.py lines 121-128) from
the `render_lock.acquire()` call on.  The three flags model whether
`scene.remove_node`, the `pyrender.Node` construction, or `scene.add_node`
raises; an exception propagates to the caller (`Except.error`) carrying the
state at the point of the raise — the source has no `try`/`finally`, so no
release runs on that path. -/
def updatePyrender (removeRaises nodeCtorRaises addRaises : Bool) (s : RenderState) :
    Except RenderState RenderState :=
  let s1 : RenderState := { s with lockHeld := true }
  if removeRaises then Except.error s1
  else
    let s2 : RenderState := { s1 with nodeInScene := false }
    if nodeCtorRaises then Except.error s2
    else if addRaises then Except.error s2
    else
      let s3 : RenderState := { s2 with nodeInScene := true }
      Except.ok { s3 with lockHeld := false }

/-- Embeds `os.path.isfile(path)` as called in `_init_exp_bases`
(animator.py line 49): Python's `genericpath.isfile` catches only `OSError`
and `ValueError`, so `os.stat(None)` raising `TypeError` propagates; on a
string path it reports whether the file exists per the filesystem `fs`. -/
def isfilePy (fs : String → Bool) : Option String → Except Unit Bool
  | none => Except.error ()
  | some p => Except.ok (fs p)

/-- Embeds the eye-index part of `FaceAnimator._init_exp_bases`
(animator.py lines 49-52): `if os.path.isfile(eye_index_path):
self.eye_index = np.loadtxt(...) else: self.eye_index = None`, where
`loadtxt` abstracts the file contents. -/
def initExpBasesEyeIndex (fs : String → Bool) (loadtxt : String → List ℕ)
    (eyeIndexPath : Option String) : Except Unit (Option (List ℕ)) :=
  match isfilePy fs eyeIndexPath with
  | Except.error e => Except.error e
  | Except.ok true => Except.ok (some (loadtxt (eyeIndexPath.getD "")))
  | Except.ok false => Except.ok none

/-- Sample animator configuration with the eye-index list absent and a
well-formed 26-token raw frame present: `E = 3`, `V = 1`, identity basis
rows, mean shape at the origin. -/
def sampleNoEye : AnimState :=
  { expNum := 3
    verticesNum := 1
    meanShape := [⟨0, 0, 0⟩]
    expBases := [[1, 0, 0], [0, 1, 0], [0, 0, 1]]
    eyeIndex := none
    rawData := some (List.replicate 26 (some 0))
    coeffRaw := none }

/-- Same configuration as `sampleNoEye` but with eye-index list `[0]`. -/
def sampleEye : AnimState :=
  { sampleNoEye with eyeIndex := some [0] }

/-- Same configuration as `sampleEye` but with a short (10-token) raw frame. -/
def sampleShortFrame : AnimState :=
  { sampleEye with rawData := some (List.replicate 10 (some 0)) }

/-- Same configuration as `sampleEye` but with the raw-data slot never set
(no frame received yet). -/
def sampleFresh : AnimState :=
  { sampleEye with rawData := none }

/-- Reading an index just overwritten by `List.set` yields the new value. -/
theorem getD_set_self {α : Type} (l : List α) (i : ℕ) (a d : α) (h : i < l.length) :
    (l.set i a).getD i d = a := by
  induction l generalizing i with
  | nil => simp at h
  | cons x xs ih =>
    cases i with
    | zero => rfl
    | succ n => simpa using ih n (by simpa using h)

/-- `List.set` leaves every other index unchanged. -/
theorem getD_set_ne {α : Type} (l : List α) (i j : ℕ) (a d : α) (h : i ≠ j) :
    (l.set i a).getD j d = l.getD j d := by
  induction l generalizing i j with
  | nil => simp
  | cons x xs ih =>
    cases i with
    | zero =>
      cases j with
      | zero => exact absurd rfl h
      | succ m => simp
    | succ n =>
      cases j with
      | zero => simp
      | succ m => simpa using ih n m (by omega)

/-- Every read of an all-zero list yields zero (in range or defaulted). -/
theorem getD_replicate_zero (n i : ℕ) : (List.replicate n (0 : ℚ)).getD i 0 = 0 := by
  simp

/-- A fully parsed frame has one value per token. -/
theorem parseFloats_length (toks : List Token) (raw : List ℚ)
    (h : parseFloats toks = some raw) : raw.length = toks.length := by
  induction toks generalizing raw with
  | nil => cases h; rfl
  | cons t rest ih =>
    cases t with
    | none => simp [parseFloats] at h
    | some q =>
      rcases hp : parseFloats rest with _ | l
      · rw [parseFloats, hp] at h; simp at h
      · rw [parseFloats, hp] at h
        simp only [Option.map_some'] at h
        cases h
        simp [ih l hp]

/-- A frame containing a non-numeric token fails to parse (`float` raises). -/
theorem parseFloats_eq_none_of_mem (toks : List Token) (h : none ∈ toks) :
    parseFloats toks = none := by
  induction toks with
  | nil => cases h
  | cons t rest ih =>
    cases t with
    | none => rfl
    | some q =>
      have hr : none ∈ rest := by
        rcases List.mem_cons.mp h with h1 | h1
        · simp at h1
        · exact h1
      simp [parseFloats, ih hr]

/-- The default head of a nonempty list is a member. -/
theorem headD_mem {α : Type} (l : List α) (d : α) (h : l ≠ []) : l.headD d ∈ l := by
  cases l with
  | nil => exact absurd rfl h
  | cons x xs => simp

/-- One eye-loop iteration preserves the array length. -/
theorem eyeStep_length (ed : ℚ) (mean acc : List Vec3) (idx : ℕ) :
    (eyeStep ed mean acc idx).length = acc.length := by
  simp [eyeStep]

/-- The eye loop preserves the array length. -/
theorem eyeCorrect_length (ed : ℚ) (mean : List Vec3) (idxs : List ℕ) :
    ∀ acc : List Vec3, (eyeCorrect ed mean acc idxs).length = acc.length := by
  induction idxs with
  | nil => intro acc; rfl
  | cons a rest ih =>
    intro acc
    show (eyeCorrect ed mean (eyeStep ed mean acc a) rest).length = acc.length
    rw [ih, eyeStep_length]

/-- One eye-loop iteration leaves other indices unchanged. -/
theorem eyeStep_getD_ne (ed : ℚ) (mean acc : List Vec3) (i j : ℕ) (h : i ≠ j) :
    (eyeStep ed mean acc i).getD j default = acc.getD j default := by
  simp only [eyeStep]
  rw [getD_set_ne _ _ _ _ _ h, getD_set_ne _ _ _ _ _ h]

/-- One eye-loop iteration at an in-range index writes exactly the mean-shape
vertex with the depth coordinate reduced by the delta. -/
theorem eyeStep_getD_self (ed : ℚ) (mean acc : List Vec3) (i : ℕ) (h : i < acc.length) :
    (eyeStep ed mean acc i).getD i default = eyeTarget ed mean i := by
  have h1 : i < (acc.set i (mean.getD i default)).length := by simpa using h
  simp only [eyeStep, eyeTarget]
  rw [getD_set_self _ _ _ _ h1, getD_set_self _ _ _ _ h]

/-- The eye loop leaves indices outside the index list unchanged. -/
theorem eyeCorrect_getD_not_mem (ed : ℚ) (mean : List Vec3) (j : ℕ) :
    ∀ (idxs : List ℕ) (acc : List Vec3), j ∉ idxs →
      (eyeCorrect ed mean acc idxs).getD j default = acc.getD j default := by
  intro idxs
  induction idxs with
  | nil => intro acc _; rfl
  | cons a rest ih =>
    intro acc h
    have ha : a ≠ j := fun he => h (he ▸ List.mem_cons_self a rest)
    have hr : j ∉ rest := fun hm => h (List.mem_cons_of_mem _ hm)
    show (eyeCorrect ed mean (eyeStep ed mean acc a) rest).getD j default = acc.getD j default
    rw [ih _ hr, eyeStep_getD_ne _ _ _ _ _ ha]

/-- After the eye loop, every listed in-range index holds exactly the
mean-shape vertex with the depth coordinate reduced by the delta, whatever the
starting (blended) array held there. -/
theorem eyeCorrect_getD_mem (ed : ℚ) (mean : List Vec3) (j : ℕ) :
    ∀ (idxs : List ℕ) (acc : List Vec3), j ∈ idxs → j < acc.length →
      (eyeCorrect ed mean acc idxs).getD j default = eyeTarget ed mean j := by
  intro idxs
  induction idxs with
  | nil => intro acc h _; cases h
  | cons a rest ih =>
    intro acc h hlt
    by_cases hr : j ∈ rest
    · show (eyeCorrect ed mean (eyeStep ed mean acc a) rest).getD j default = _
      exact ih _ hr (by rw [eyeStep_length]; exact hlt)
    · have ha : j = a := by
        rcases List.mem_cons.mp h with h1 | h1
        · exact h1
        · exact absurd h1 hr
      subst ha
      show (eyeCorrect ed mean (eyeStep ed mean acc j) rest).getD j default = _
      rw [eyeCorrect_getD_not_mem ed mean j rest _ hr]
      exact eyeStep_getD_self ed mean acc j hlt

/-- Projection lemma: the return value of `_update_vertices` is the `try`
block's value, or `mean_shape` when the block raised. -/
theorem updateVertices_ret (s : AnimState) (ed : ℚ) :
    (updateVertices s ed).ret =
      match (updateVerticesTry s ed).2 with
      | Except.ok r => r
      | Except.error _ => some s.meanShape := rfl

/-- Projection lemma: `_update_vertices` writes only the `coeff_raw`
attribute of the animator. -/
theorem updateVertices_state (s : AnimState) (ed : ℚ) :
    (updateVertices s ed).state = { s with coeffRaw := (updateVerticesTry s ed).1 } := rfl

/-- With the `raw_data` attribute never set, the `try` block raises
`AttributeError` at its first statement. -/
theorem updateVerticesTry_rawData_none (s : AnimState) (ed : ℚ) (h : s.rawData = none) :
    updateVerticesTry s ed = (s.coeffRaw, Except.error ()) := by
  unfold updateVerticesTry
  rw [h]

/-- A malformed frame (short, or with a non-numeric token) makes the `try`
block raise: `float` raises `ValueError` on a bad token, and indexing
position 25 of a short array raises `IndexError`. -/
theorem updateVerticesTry_malformed (s : AnimState) (ed : ℚ) (toks : List Token)
    (hraw : s.rawData = some toks) (hbad : toks.length < 26 ∨ none ∈ toks) :
    (updateVerticesTry s ed).2 = Except.error () := by
  unfold updateVerticesTry
  rw [hraw]
  dsimp only
  rcases hp : parseFloats toks with _ | raw
  · rfl
  · dsimp only
    have hnone : (none : Token) ∉ toks := by
      intro hm
      rw [parseFloats_eq_none_of_mem toks hm] at hp
      cases hp
    have hlen : raw.length < 26 := by
      rcases hbad with h | h
      · rw [parseFloats_length toks raw hp]; exact h
      · exact absurd h hnone
    have h25 : raw[25]? = none := List.getElem?_eq_none (by omega)
    rw [h25]

/-- The outcome of the `try` block does not depend on the stale `coeff_raw`
attribute left by a previous cycle. -/
theorem updateVerticesTry_coeffRaw (s : AnimState) (c : Option (List ℚ)) (ed : ℚ) :
    (updateVerticesTry { s with coeffRaw := c } ed).2 = (updateVerticesTry s ed).2 := by
  obtain ⟨e, vn, ms, eb, ei, rd, cr⟩ := s
  unfold updateVerticesTry
  cases rd with
  | none => rfl
  | some toks =>
    dsimp only
    rcases parseFloats toks with _ | raw <;> rfl

/-- The return value of `_update_vertices` does not depend on the stale
`coeff_raw` attribute left by a previous cycle. -/
theorem updateVertices_ret_coeffRaw (s : AnimState) (c : Option (List ℚ)) (ed : ℚ) :
    (updateVertices { s with coeffRaw := c } ed).ret = (updateVertices s ed).ret := by
  rw [updateVertices_ret, updateVertices_ret, updateVerticesTry_coeffRaw]

/-- Once the state stops changing except for `coeff_raw`, every cycle of the
animation loop returns the same vertices as the first. -/
theorem animCycles_mem (ed : ℚ) :
    ∀ (n : ℕ) (s : AnimState), ∀ o ∈ animCycles s ed n, o = (updateVertices s ed).ret := by
  intro n
  induction n with
  | zero => intro s o ho; cases ho
  | succ m ih =>
    intro s o ho
    rw [animCycles] at ho
    rcases List.mem_cons.mp ho with h | h
    · exact h
    · rw [ih _ o h]
      exact updateVertices_ret_coeffRaw s _ ed

/-- Events after the first raising read are never consumed: the receive loop's
result is unchanged by whatever follows the failure (no reconnection). -/
theorem recvLoop_stops_at_fail (rest : List NetEvent) :
    ∀ (pre : List NetEvent) (raw : Option (List Token)), NetEvent.fail ∉ pre →
      recvLoop (pre ++ NetEvent.fail :: rest) raw = recvLoop (pre ++ [NetEvent.fail]) raw := by
  intro pre
  induction pre with
  | nil => intro raw _; rfl
  | cons e pre' ih =>
    intro raw h
    cases e with
    | msg f =>
      have h' : NetEvent.fail ∉ pre' := fun hm => h (List.mem_cons_of_mem _ hm)
      simp only [List.cons_append, recvLoop, List.append_eq]
      rw [ih (some f) h']
    | closed =>
      have h' : NetEvent.fail ∉ pre' := fun hm => h (List.mem_cons_of_mem _ hm)
      simp only [List.cons_append, recvLoop, List.append_eq]
      rw [ih (some [none]) h']
    | fail => exact absurd (List.mem_cons_self _ _) h

/-- The receive loop prints the `Lose Connection` report exactly once on a
trace whose first failure ends it. -/
theorem recvLoop_report_count (rest : List NetEvent) :
    ∀ (pre : List NetEvent) (raw : Option (List Token)), NetEvent.fail ∉ pre →
      ((recvLoop (pre ++ NetEvent.fail :: rest) raw).2.count LogMsg.loseConnection) = 1 := by
  intro pre
  induction pre with
  | nil => intro raw _; rfl
  | cons e pre' ih =>
    intro raw h
    cases e with
    | msg f =>
      have h' : NetEvent.fail ∉ pre' := fun hm => h (List.mem_cons_of_mem _ hm)
      simp only [List.cons_append, recvLoop]
      rw [List.count_cons]
      have hne : (LogMsg.fromServer f == LogMsg.loseConnection) = false := rfl
      rw [hne]
      simpa using ih (some f) h'
    | closed =>
      have h' : NetEvent.fail ∉ pre' := fun hm => h (List.mem_cons_of_mem _ hm)
      simp only [List.cons_append, recvLoop]
      rw [List.count_cons]
      have hne : (LogMsg.fromServer [none] == LogMsg.loseConnection) = false := rfl
      rw [hne]
      simpa using ih (some [none]) h'
    | fail => exact absurd (List.mem_cons_self _ _) h

/-- C5: for every malformed raw frame — fewer than 26 comma-separated numeric
tokens, or containing a non-numeric token — `_update_vertices` returns
`mean_shape` unchanged (identity deformation), raises nothing to its caller
(the broad `except` swallows the parse error), and prints no per-occurrence
log line. -/
theorem malformed_frame_yields_mean_shape (s : AnimState) (ed : ℚ) (toks : List Token)
    (hraw : s.rawData = some toks) (hbad : toks.length < 26 ∨ none ∈ toks) :
    (updateVertices s ed).ret = some s.meanShape ∧ (updateVertices s ed).log = [] := by
  refine ⟨?_, rfl⟩
  rw [updateVertices_ret, updateVerticesTry_malformed s ed toks hraw hbad]

/-- Witness for C5 at a concrete 10-token frame. -/
theorem malformed_frame_yields_mean_shape_witness :
    sampleShortFrame.rawData = some (List.replicate 10 (some 0)) ∧
    ((List.replicate 10 (some (0:ℚ))).length < 26 ∨ none ∈ List.replicate 10 (some (0:ℚ))) ∧
    (updateVertices sampleShortFrame (1/100)).ret = some sampleShortFrame.meanShape ∧
    (updateVertices sampleShortFrame (1/100)).log = [] :=
  ⟨rfl, Or.inl (by decide),
    malformed_frame_yields_mean_shape sampleShortFrame (1/100) (List.replicate 10 (some 0))
      rfl (Or.inl (by decide))⟩

/-- C9: when an update cycle runs before any frame has been received (the
raw-data slot was never set), `_update_vertices` does not crash: the broad
`except` catches the `AttributeError` and the cycle returns `mean_shape`. -/
theorem missing_raw_data_yields_mean_shape (s : AnimState) (ed : ℚ)
    (h : s.rawData = none) :
    (updateVertices s ed).ret = some s.meanShape := by
  rw [updateVertices_ret, updateVerticesTry_rawData_none s ed h]

/-- Witness for C9 at a concrete freshly constructed animator. -/
theorem missing_raw_data_yields_mean_shape_witness :
    sampleFresh.rawData = none ∧
    (updateVertices sampleFresh (1/100)).ret = some sampleFresh.meanShape :=
  ⟨rfl, missing_raw_data_yields_mean_shape sampleFresh (1/100) rfl⟩

/-- C10: `_update_vertices` never modifies `mean_shape`, `exp_bases` or
`eye_index` (the eye loop and the depth-delta subtraction write only into the
freshly computed array `v`, and numpy row assignment copies values), so the
identity-deformation fallback of any later cycle is still the original mean
shape. -/
theorem update_vertices_preserves_model (s : AnimState) (ed ed2 : ℚ) :
    (updateVertices s ed).state.meanShape = s.meanShape ∧
    (updateVertices s ed).state.expBases = s.expBases ∧
    (updateVertices s ed).state.eyeIndex = s.eyeIndex ∧
    (updateVertices { (updateVertices s ed).state with rawData := none } ed2).ret
      = some s.meanShape := by
  refine ⟨rfl, rfl, rfl, ?_⟩
  rw [updateVertices_ret, updateVerticesTry_rawData_none _ _ rfl]
  rfl

/-- C2 (amended): on a trace where the connection fails after `pre` with a
read that raises (an I/O error — not a graceful peer close, where `recvfrom`
returns empty chunks and the loop keeps spinning), the receive loop
terminates at the failure without reconnecting (events after it are never
consumed), reports `Lose Connection` exactly once, and every subsequent
animation-loop cycle returns the same vertices as the first cycle after the
failure — the deformation of the last stored frame, frozen indefinitely. -/
theorem connection_loss_feed_terminal (pre rest : List NetEvent) (raw0 : Option (List Token))
    (hpre : NetEvent.fail ∉ pre) (s : AnimState) (ed : ℚ) (n : ℕ) :
    recvLoop (pre ++ NetEvent.fail :: rest) raw0 = recvLoop (pre ++ [NetEvent.fail]) raw0 ∧
    (recvLoop (pre ++ NetEvent.fail :: rest) raw0).2.count LogMsg.loseConnection = 1 ∧
    (∀ o ∈ animCycles { s with rawData := (recvLoop (pre ++ NetEvent.fail :: rest) raw0).1 } ed n,
      o = (updateVertices { s with rawData := (recvLoop (pre ++ NetEvent.fail :: rest) raw0).1 } ed).ret) :=
  ⟨recvLoop_stops_at_fail rest pre raw0 hpre,
   recvLoop_report_count rest pre raw0 hpre,
   animCycles_mem ed n _⟩

/-- Witness for C2 at a concrete trace: one frame, then a failure, then an
unread event. -/
theorem connection_loss_feed_terminal_witness :
    NetEvent.fail ∉ [NetEvent.msg [some (1:ℚ)]] ∧
    (recvLoop ([NetEvent.msg [some (1:ℚ)]] ++ NetEvent.fail :: [NetEvent.msg [some 2]]) none
      = recvLoop ([NetEvent.msg [some (1:ℚ)]] ++ [NetEvent.fail]) none ∧
    (recvLoop ([NetEvent.msg [some (1:ℚ)]] ++ NetEvent.fail :: [NetEvent.msg [some 2]]) none).2.count
        LogMsg.loseConnection = 1 ∧
    (∀ o ∈ animCycles { sampleEye with
        rawData := (recvLoop ([NetEvent.msg [some (1:ℚ)]] ++ NetEvent.fail :: [NetEvent.msg [some 2]]) none).1 }
        (1/100) 3,
      o = (updateVertices { sampleEye with
        rawData := (recvLoop ([NetEvent.msg [some (1:ℚ)]] ++ NetEvent.fail :: [NetEvent.msg [some 2]]) none).1 }
        (1/100)).ret)) :=
  ⟨by decide,
   connection_loss_feed_terminal [NetEvent.msg [some 1]] [NetEvent.msg [some 2]] none
     (by decide) sampleEye (1/100) 3⟩

/-- C2 (counterexample, graceful peer close): `recvfrom` returns the empty
chunk `b''` at TCP end-of-stream instead of raising, so the claim fails on
the very case it covers.  At concrete inputs: (1) the read loop does not
terminate at the close — it keeps consuming and storing later events; (2) it
never prints the `Lose Connection` report; (3) the empty chunk overwrites
`raw_data` with the empty string's single non-numeric token; (4) the next
animation cycle therefore returns the mean shape; and (5) the mean shape is
not the deformation of the last successfully received frame (here the
26-token zero frame of `sampleEye`, whose cycle returns the eye-corrected
vertex, not the mean shape). -/
theorem connection_close_not_terminal :
    (recvLoop [NetEvent.closed, NetEvent.msg [some 7]] (some (List.replicate 26 (some 0)))).1
      = some [some 7] ∧
    (recvLoop [NetEvent.msg (List.replicate 26 (some 0)), NetEvent.closed] none).2.count
      LogMsg.loseConnection = 0 ∧
    (recvLoop [NetEvent.msg (List.replicate 26 (some 0)), NetEvent.closed] none).1
      = some [none] ∧
    (updateVertices { sampleEye with rawData := some [none] } (1/100)).ret
      = some sampleEye.meanShape ∧
    (updateVertices sampleEye (1/100)).ret ≠ some sampleEye.meanShape := by
  have hv : (updateVerticesTry sampleEye (1/100)).2 = Except.ok (some [⟨0, 0, -(1/100)⟩]) := by
    norm_num [updateVerticesTry, sampleEye, sampleNoEye, parseFloats, mkCoeff, blend,
      vecMatmul, reshapeV, chunk3, eyeCorrect, eyeStep, eyeTarget, Vec3.add,
      List.replicate, List.range, List.range.loop]
  refine ⟨rfl, rfl, rfl, rfl, ?_⟩
  rw [updateVertices_ret, hv]
  intro h
  simp only [sampleEye, sampleNoEye, Option.some.injEq, List.cons.injEq, Vec3.mk.injEq] at h
  norm_num at h

/-- C1 (failing direction): in the configuration without an eye-index list,
`_update_vertices` on a well-formed 26-token frame returns Python `None` — not
a V-vertex array — because the `return v` statement sits inside the
`if self.eye_index is not None` block and the `try` block falls through.  The
model's mean shape does have exactly V vertices, so the fall-through is a
slip, not a shape mismatch. -/
theorem update_vertices_no_eye_returns_none :
    (updateVertices sampleNoEye (1/100)).ret = none ∧
    sampleNoEye.meanShape.length = sampleNoEye.verticesNum :=
  ⟨rfl, rfl⟩

/-- C3 (failing direction): `_update_pyrender` has no `try`/`finally` around
the render-lock section, so when `scene.remove_node` raises (first conjunct)
or the `pyrender.Node` construction raises (second conjunct) the exception
propagates with the lock still held — it is not released. -/
theorem update_pyrender_lock_not_released_on_error :
    updatePyrender true false false { lockHeld := false, nodeInScene := true }
      = Except.error { lockHeld := true, nodeInScene := true } ∧
    updatePyrender false true false { lockHeld := false, nodeInScene := true }
      = Except.error { lockHeld := true, nodeInScene := false } :=
  ⟨rfl, rfl⟩

/-- C4 (failing direction): constructing the model with the eye-index path
left at its default `None` raises `TypeError` out of `os.path.isfile` —
construction does not succeed, for every filesystem and file content. -/
theorem init_eye_index_none_path_raises (fs : String → Bool) (loadtxt : String → List ℕ) :
    initExpBasesEyeIndex fs loadtxt none = Except.error () := rfl

/-- The derived coefficient vector always has one entry per expression
channel. -/
theorem mkCoeff_length (E : ℕ) (a b c : ℚ) : (mkCoeff E a b c).length = E := by
  simp [mkCoeff]

/-- Channel 0 of the derived coefficient vector. -/
theorem mkCoeff_getD_0 (E : ℕ) (a b c : ℚ) (h : 3 ≤ E) :
    (mkCoeff E a b c).getD 0 0 = a / 80 := by
  unfold mkCoeff
  rw [getD_set_ne _ _ _ _ _ (by omega), getD_set_ne _ _ _ _ _ (by omega)]
  exact getD_set_self _ _ _ _ (by simp only [List.length_replicate]; omega)

/-- Channel 1 of the derived coefficient vector. -/
theorem mkCoeff_getD_1 (E : ℕ) (a b c : ℚ) (h : 3 ≤ E) :
    (mkCoeff E a b c).getD 1 0 = b / 80 := by
  unfold mkCoeff
  rw [getD_set_ne _ _ _ _ _ (by omega)]
  exact getD_set_self _ _ _ _ (by simp only [List.length_set, List.length_replicate]; omega)

/-- Channel 2 of the derived coefficient vector. -/
theorem mkCoeff_getD_2 (E : ℕ) (a b c : ℚ) (h : 3 ≤ E) :
    (mkCoeff E a b c).getD 2 0 = c / 80 := by
  unfold mkCoeff
  exact getD_set_self _ _ _ _ (by simp only [List.length_set, List.length_replicate]; omega)

/-- Every channel past 2 of the derived coefficient vector stays zero. -/
theorem mkCoeff_getD_other (E i : ℕ) (a b c : ℚ) (h : 3 ≤ i) :
    (mkCoeff E a b c).getD i 0 = 0 := by
  unfold mkCoeff
  rw [getD_set_ne _ _ _ _ _ (by omega), getD_set_ne _ _ _ _ _ (by omega),
    getD_set_ne _ _ _ _ _ (by omega)]
  exact getD_replicate_zero E i

/-- C7: for every raw frame with at least 26 numeric values, the coefficient
vector `_update_vertices` derives (via `mkCoeff`, applied to the values at
raw positions 25, 13 and 12) has length E, channel 0 equal to raw position 25
divided by 80, channel 1 equal to raw position 13 divided by 80, channel 2
equal to raw position 12 divided by 80, and every other channel exactly
zero. -/
theorem coeff_vector_channels (raw : List ℚ) (E : ℕ) (_h26 : 26 ≤ raw.length) (hE : 3 ≤ E) :
    (mkCoeff E (raw.getD 25 0) (raw.getD 13 0) (raw.getD 12 0)).length = E ∧
    (mkCoeff E (raw.getD 25 0) (raw.getD 13 0) (raw.getD 12 0)).getD 0 0 = raw.getD 25 0 / 80 ∧
    (mkCoeff E (raw.getD 25 0) (raw.getD 13 0) (raw.getD 12 0)).getD 1 0 = raw.getD 13 0 / 80 ∧
    (mkCoeff E (raw.getD 25 0) (raw.getD 13 0) (raw.getD 12 0)).getD 2 0 = raw.getD 12 0 / 80 ∧
    ∀ i : ℕ, 3 ≤ i → (mkCoeff E (raw.getD 25 0) (raw.getD 13 0) (raw.getD 12 0)).getD i 0 = 0 :=
  ⟨mkCoeff_length E _ _ _, mkCoeff_getD_0 E _ _ _ hE, mkCoeff_getD_1 E _ _ _ hE,
   mkCoeff_getD_2 E _ _ _ hE, fun i hi => mkCoeff_getD_other E i _ _ _ hi⟩

/-- Witness for C7 at a concrete 26-value frame and E = 3. -/
theorem coeff_vector_channels_witness :
    26 ≤ (List.replicate 26 (5:ℚ)).length ∧ (3:ℕ) ≤ 3 ∧
    ((mkCoeff 3 ((List.replicate 26 (5:ℚ)).getD 25 0) ((List.replicate 26 (5:ℚ)).getD 13 0)
        ((List.replicate 26 (5:ℚ)).getD 12 0)).length = 3 ∧
     (mkCoeff 3 ((List.replicate 26 (5:ℚ)).getD 25 0) ((List.replicate 26 (5:ℚ)).getD 13 0)
        ((List.replicate 26 (5:ℚ)).getD 12 0)).getD 0 0 = (List.replicate 26 (5:ℚ)).getD 25 0 / 80 ∧
     (mkCoeff 3 ((List.replicate 26 (5:ℚ)).getD 25 0) ((List.replicate 26 (5:ℚ)).getD 13 0)
        ((List.replicate 26 (5:ℚ)).getD 12 0)).getD 1 0 = (List.replicate 26 (5:ℚ)).getD 13 0 / 80 ∧
     (mkCoeff 3 ((List.replicate 26 (5:ℚ)).getD 25 0) ((List.replicate 26 (5:ℚ)).getD 13 0)
        ((List.replicate 26 (5:ℚ)).getD 12 0)).getD 2 0 = (List.replicate 26 (5:ℚ)).getD 12 0 / 80 ∧
     ∀ i : ℕ, 3 ≤ i → (mkCoeff 3 ((List.replicate 26 (5:ℚ)).getD 25 0)
        ((List.replicate 26 (5:ℚ)).getD 13 0) ((List.replicate 26 (5:ℚ)).getD 12 0)).getD i 0 = 0) :=
  ⟨by decide, by decide, coeff_vector_channels (List.replicate 26 5) 3 (by decide) (by decide)⟩

/-- The zero coefficient vector maps under the basis to the zero displacement
vector. -/
theorem vecMatmul_zero (E : ℕ) (B : List (List ℚ)) (hE : E = B.length)
    (hrect : ∀ r ∈ B, r.length = (B.headD []).length) :
    vecMatmul (List.replicate E 0) B = some (List.replicate (B.headD []).length 0) := by
  unfold vecMatmul
  rw [if_pos ⟨by simp [hE], hrect⟩]
  congr 1
  have hz : ∀ j : ℕ,
      (((List.replicate E (0:ℚ)).zip B).map (fun p => p.1 * p.2.getD j 0)).sum = 0 := by
    intro j
    apply List.sum_eq_zero
    intro x hx
    rcases List.mem_map.mp hx with ⟨p, hp, rfl⟩
    rw [List.eq_of_mem_replicate (List.of_mem_zip hp).1, zero_mul]
  calc (List.range (B.headD []).length).map
        (fun j => (((List.replicate E (0:ℚ)).zip B).map (fun p => p.1 * p.2.getD j 0)).sum)
      = (List.range (B.headD []).length).map (fun _ => (0:ℚ)) :=
        List.map_congr_left (fun j _ => hz j)
    _ = List.replicate (List.range (B.headD []).length).length 0 := List.map_const' _ 0
    _ = List.replicate (B.headD []).length 0 := by rw [List.length_range]

/-- Reshaping the zero displacement vector yields all-zero vertices. -/
theorem chunk3_replicate (v : ℕ) :
    chunk3 (List.replicate (3 * v) 0) = List.replicate v ⟨0, 0, 0⟩ := by
  induction v with
  | zero => rfl
  | succ m ih =>
    have h3 : 3 * Nat.succ m = 3 + 3 * m := by omega
    rw [h3, List.replicate_add]
    show (⟨0, 0, 0⟩ : Vec3) :: chunk3 (List.replicate (3 * m) 0) =
      List.replicate (Nat.succ m) ⟨0, 0, 0⟩
    rw [ih, List.replicate_succ]

/-- Adding the zero displacement to the mean shape returns the mean shape. -/
theorem zipWith_add_zero_left (mean : List Vec3) :
    List.zipWith Vec3.add (List.replicate mean.length ⟨0, 0, 0⟩) mean = mean := by
  induction mean with
  | nil => rfl
  | cons p ps ih =>
    show Vec3.add ⟨0, 0, 0⟩ p :: List.zipWith Vec3.add (List.replicate ps.length ⟨0, 0, 0⟩) ps
      = p :: ps
    rw [ih]
    congr 1
    cases p
    simp [Vec3.add]

/-- C8: the all-zero coefficient vector blends to exactly the mean shape —
`reshape(coeff @ exp_bases, (V,3)) + mean_shape` with zero coefficients is
`mean_shape` itself (before any eye correction), in every well-formed model. -/
theorem zero_coeff_blend_identity (s : AnimState)
    (hB : s.expBases.length = s.expNum)
    (hrect : ∀ r ∈ s.expBases, r.length = 3 * s.verticesNum)
    (hmean : s.meanShape.length = s.verticesNum)
    (hE : 1 ≤ s.expNum) :
    blend (List.replicate s.expNum 0) s = some s.meanShape := by
  have hne : s.expBases ≠ [] := by
    intro h0
    rw [h0] at hB
    simp at hB
    omega
  have hhead : (s.expBases.headD []).length = 3 * s.verticesNum :=
    hrect _ (headD_mem _ _ hne)
  have hrect' : ∀ r ∈ s.expBases, r.length = (s.expBases.headD []).length := by
    intro r hr
    rw [hrect r hr, hhead]
  unfold blend
  rw [vecMatmul_zero s.expNum s.expBases hB.symm hrect']
  dsimp only
  rw [hhead]
  unfold reshapeV
  rw [if_pos (by simp)]
  rw [chunk3_replicate]
  dsimp only
  have hlen : (List.replicate s.verticesNum (⟨0, 0, 0⟩ : Vec3)).length = s.meanShape.length := by
    simp [hmean]
  rw [if_pos hlen]
  rw [← hmean, zipWith_add_zero_left]

/-- Witness for C8 at the concrete `sampleEye` model. -/
theorem zero_coeff_blend_identity_witness :
    sampleEye.expBases.length = sampleEye.expNum ∧
    (∀ r ∈ sampleEye.expBases, r.length = 3 * sampleEye.verticesNum) ∧
    sampleEye.meanShape.length = sampleEye.verticesNum ∧
    1 ≤ sampleEye.expNum ∧
    blend (List.replicate sampleEye.expNum 0) sampleEye = some sampleEye.meanShape :=
  ⟨rfl, by decide, rfl, by decide,
   zero_coeff_blend_identity sampleEye rfl (by decide) rfl (by decide)⟩

/-- C6: whenever `_update_vertices` returns through the eye branch (an
eye-index list is present and `return v` is reached), every listed index of
the returned array holds exactly the mean-shape vertex with the depth
coordinate reduced by `eyeDelta` — the correction entirely replaces the
blended result there, for every received coefficient frame. -/
theorem eye_correction_overrides_blend (s : AnimState) (ed : ℚ) (v : List Vec3)
    (idxs : List ℕ) (idx : ℕ)
    (hok : (updateVerticesTry s ed).2 = Except.ok (some v))
    (he : s.eyeIndex = some idxs) (hmem : idx ∈ idxs) :
    v.getD idx default = eyeTarget ed s.meanShape idx := by
  unfold updateVerticesTry at hok
  rcases hr : s.rawData with _ | toks <;> rw [hr] at hok
  · simp at hok
  dsimp only at hok
  rcases hp : parseFloats toks with _ | raw <;> rw [hp] at hok
  · simp at hok
  dsimp only at hok
  rcases h25 : raw[25]? with _ | a <;> rw [h25] at hok
  · simp at hok
  rcases h13 : raw[13]? with _ | b <;> rw [h13] at hok
  · simp at hok
  rcases h12 : raw[12]? with _ | c <;> rw [h12] at hok
  · simp at hok
  dsimp only at hok
  by_cases hE : 3 ≤ s.expNum
  · rw [if_pos hE] at hok
    rcases hb : blend (mkCoeff s.expNum a b c) s with _ | w <;> rw [hb] at hok
    · simp at hok
    dsimp only at hok
    rw [he] at hok
    dsimp only at hok
    by_cases hall : idxs.all (fun i => decide (i < w.length)) = true
    · rw [if_pos hall] at hok
      have hv : eyeCorrect ed s.meanShape w idxs = v := Option.some.inj (Except.ok.inj hok)
      rw [← hv]
      have hlt : idx < w.length := of_decide_eq_true (List.all_eq_true.mp hall idx hmem)
      exact eyeCorrect_getD_mem ed s.meanShape idx idxs w hmem hlt
    · rw [if_neg hall] at hok
      simp at hok
  · rw [if_neg hE] at hok
    simp at hok

/-- Witness for C6 at the concrete `sampleEye` model with a 26-token zero
frame: the blended vertex at index 0 is the origin, and the returned vertex
is the mean-shape vertex with depth lowered by 1/100. -/
theorem eye_correction_overrides_blend_witness :
    (updateVerticesTry sampleEye (1/100)).2 = Except.ok (some [⟨0, 0, -(1/100)⟩]) ∧
    sampleEye.eyeIndex = some [0] ∧ 0 ∈ [0] ∧
    ([(⟨0, 0, -(1/100)⟩ : Vec3)].getD 0 default = eyeTarget (1/100) sampleEye.meanShape 0) := by
  have hv : (updateVerticesTry sampleEye (1/100)).2 = Except.ok (some [⟨0, 0, -(1/100)⟩]) := by
    norm_num [updateVerticesTry, sampleEye, sampleNoEye, parseFloats, mkCoeff, blend,
      vecMatmul, reshapeV, chunk3, eyeCorrect, eyeStep, eyeTarget, Vec3.add,
      List.replicate, List.range, List.range.loop]
  exact ⟨hv, rfl, by decide,
    eye_correction_overrides_blend sampleEye (1/100) [⟨0, 0, -(1/100)⟩] [0] 0 hv rfl (by decide)⟩
